import Mathlib

/-!
# Verification of the ClimateCore data versioning subsystem

Shallow embedding of `src/versioning/data_versioner.py` (class `DataVersioner`).

Modelling conventions:
* A pandas `DataFrame` is a list of column names plus a list of rows
  (each row a list of JSON-representable cell values).
* The filesystem is explicit in a `State`: the registry document
  (`version_registry.json`), the per-version `version_info.json` files,
  the set of existing per-version directories, and the artifact files
  (keyed by version id and filename; a write with an existing key
  shadows the previous content, i.e. overwrites).
* Wall-clock readings (`datetime.utcnow()`), the strftime timestamp used
  in filenames, the uuid for a new version, and the `os.listdir` counts
  taken by `create_version` are inputs of the operations (the Python
  code obtains them from the environment).
* `_calculate_data_hash` is embedded with a real SHA-256 over the
  byte sequence of the pandas `to_json(orient='records')` serialization
  (bytes of ASCII content coincide with UTF-8 bytes).
-/

namespace ClimateCore

/-! ## SHA-256 over byte lists (for `_calculate_data_hash`) -/

namespace SHA256

def M32 : Nat := 4294967296

/-- Right rotation of a 32-bit word. -/
def rotr (n x : Nat) : Nat := ((x >>> n) ||| (x <<< (32 - n))) % M32

/-- Round constants (decimal rendering of the standard table). -/
def K : List Nat :=
  [1116352408, 1899447441, 3049323471, 3921009573, 961987163, 1508970993,
   2453635748, 2870763221, 3624381080, 310598401, 607225278, 1426881987,
   1925078388, 2162078206, 2614888103, 3248222580, 3835390401, 4022224774,
   264347078, 604807628, 770255983, 1249150122, 1555081692, 1996064986,
   2554220882, 2821834349, 2952996808, 3210313671, 3336571891, 3584528711,
   113926993, 338241895, 666307205, 773529912, 1294757372, 1396182291,
   1695183700, 1986661051, 2177026350, 2456956037, 2730485921, 2820302411,
   3259730800, 3345764771, 3516065817, 3600352804, 4094571909, 275423344,
   430227734, 506948616, 659060556, 883997877, 958139571, 1322822218,
   1537002063, 1747873779, 1955562222, 2024104815, 2227730452, 2361852424,
   2428436474, 2756734187, 3204031479, 3329325298]

/-- Initial hash state (decimal rendering of the standard values). -/
def H0 : List Nat :=
  [1779033703, 3144134277, 1013904242, 2773480762,
   1359893119, 2600822924, 528734635, 1541459225]

/-- `n` bytes of `x`, big-endian. -/
def toBytesBE : Nat → Nat → List Nat
  | 0, _ => []
  | n + 1, x => ((x >>> (8 * n)) % 256) :: toBytesBE n x

/-- Merkle–Damgård padding: `0x80`, zeros to 56 mod 64, 8-byte bit length. -/
def padMsg (msg : List Nat) : List Nat :=
  let len := msg.length
  let zeros := (119 - len % 64) % 64
  msg ++ [0x80] ++ List.replicate zeros 0 ++ toBytesBE 8 (len * 8)

/-- Pack bytes into 32-bit big-endian words. -/
def toWords : List Nat → List Nat
  | b0 :: b1 :: b2 :: b3 :: rest =>
      (((b0 * 256 + b1) * 256 + b2) * 256 + b3) :: toWords rest
  | _ => []

/-- Split a word list into 16-word blocks. -/
def toBlocks : List Nat → List (List Nat)
  | w0 :: w1 :: w2 :: w3 :: w4 :: w5 :: w6 :: w7 ::
    w8 :: w9 :: w10 :: w11 :: w12 :: w13 :: w14 :: w15 :: rest =>
      [w0, w1, w2, w3, w4, w5, w6, w7, w8, w9, w10, w11, w12, w13, w14, w15] :: toBlocks rest
  | _ => []

/-- Append the next word of the message schedule. -/
def scheduleStep (w : List Nat) : List Nat :=
  let i := w.length
  let x15 := w.getD (i - 15) 0
  let x2 := w.getD (i - 2) 0
  let s0 := (rotr 7 x15) ^^^ (rotr 18 x15) ^^^ (x15 >>> 3)
  let s1 := (rotr 17 x2) ^^^ (rotr 19 x2) ^^^ (x2 >>> 10)
  w ++ [(w.getD (i - 16) 0 + s0 + w.getD (i - 7) 0 + s1) % M32]

/-- Extend the schedule `n` times. -/
def buildSchedule : Nat → List Nat → List Nat
  | 0, w => w
  | n + 1, w => buildSchedule n (scheduleStep w)

/-- One compression round on state `[a,b,c,d,e,f,g,h]`. -/
def round (st : List Nat) (kw : Nat × Nat) : List Nat :=
  match st with
  | [a, b, c, d, e, f, g, h] =>
    let S1 := (rotr 6 e) ^^^ (rotr 11 e) ^^^ (rotr 25 e)
    let ch := (e &&& f) ^^^ ((4294967295 ^^^ e) &&& g)
    let temp1 := (h + S1 + ch + kw.1 + kw.2) % M32
    let S0 := (rotr 2 a) ^^^ (rotr 13 a) ^^^ (rotr 22 a)
    let maj := (a &&& b) ^^^ (a &&& c) ^^^ (b &&& c)
    let temp2 := (S0 + maj) % M32
    [(temp1 + temp2) % M32, a, b, c, (d + temp1) % M32, e, f, g]
  | _ => st

/-- Compress one 16-word block into the running hash state. -/
def processBlock (h : List Nat) (block : List Nat) : List Nat :=
  let ws := buildSchedule 48 block
  let st := (K.zip ws).foldl round h
  (h.zip st).map (fun p => (p.1 + p.2) % M32)

/-- SHA-256 digest (32 bytes) of a byte list. -/
def sha256Bytes (msg : List Nat) : List Nat :=
  let hs := (toBlocks (toWords (padMsg msg))).foldl processBlock H0
  (hs.map (toBytesBE 4)).flatten

def hexDigit (n : Nat) : Char :=
  if n < 10 then Char.ofNat (48 + n) else Char.ofNat (87 + n)

/-- Lowercase hex encoding of a byte list (`hexdigest`). -/
def toHex (bytes : List Nat) : String :=
  String.mk ((bytes.map (fun b => [hexDigit (b / 16), hexDigit (b % 16)])).flatten)

/-- Byte sequence of a string; for the ASCII content produced by the
JSON serializer this coincides with its UTF-8 encoding. -/
def strBytes (s : String) : List Nat := s.data.map Char.toNat

/-- `hashlib.sha256(s.encode()).hexdigest()`. -/
def sha256hex (s : String) : String := toHex (sha256Bytes (strBytes s))

end SHA256

/-! ## DataFrames and their `to_json(orient='records')` serialization -/

/-- A JSON-representable cell value of a dataframe. `null` is how a
missing cell (pandas `NaN` padding) serializes. -/
inductive Value where
  | int (i : Int)
  | str (s : String)
  | null
deriving DecidableEq, Repr

/-- A pandas DataFrame: named columns and a list of rows. -/
structure DataFrame where
  columns : List String
  rows : List (List Value)
deriving DecidableEq, Repr

def emptyDF : DataFrame := ⟨[], []⟩

/-- JSON string escaping as pandas `to_json` performs it (it also
escapes forward slashes). -/
def escapeChar (c : Char) : String :=
  if c = '"' then "\\\""
  else if c = '\\' then "\\\\"
  else if c = '/' then "\\/"
  else String.singleton c

def jsonOfString (s : String) : String :=
  "\"" ++ String.join (s.data.map escapeChar) ++ "\""

def Value.toJson : Value → String
  | .int i => toString i
  | .str s => jsonOfString s
  | .null => "null"

/-- One record object of `to_json(orient='records')`. -/
def rowToJson (cols : List String) (row : List Value) : String :=
  "\x7b" ++
    String.intercalate ","
      ((cols.zip row).map (fun p => jsonOfString p.1 ++ ":" ++ p.2.toJson)) ++
  "\x7d"

/-- `dataframe.to_json(orient='records')`. -/
def DataFrame.toJsonRecords (df : DataFrame) : String :=
  "[" ++ String.intercalate "," (df.rows.map (rowToJson df.columns)) ++ "]"

/-- `DataVersioner._calculate_data_hash`. -/
def calcHash (df : DataFrame) : String :=
  SHA256.sha256hex df.toJsonRecords

/-! ## Registry data model (`version_registry.json`) -/

/-- One entry of a version's `data_files` list (`file_info` in
`add_data_to_version`). -/
structure FileInfo where
  filename : String
  data_type : String
  created_at : String
  rows : Nat
  columns : List String
  hash : String
deriving DecidableEq, Repr

/-- One entry of the registry's `versions` list (`version_record` in
`create_version`); `metadata` is flattened into its two counts. -/
structure VersionRecord where
  id : String
  name : String
  description : Option String
  parent_id : Option String
  created_at : String
  data_files : List FileInfo
  raw_files_count : Nat
  processed_files_count : Nat
deriving DecidableEq, Repr

/-- The registry document. -/
structure Registry where
  versions : List VersionRecord
  latest_version : Option String
  created_at : String
deriving DecidableEq, Repr

/-- The filesystem state the versioner manipulates: the registry file,
the `version_info.json` files, the per-version directories, and the
parquet artifact files keyed by `(version id, filename)`. The two
association lists are looked up first-match, so prepending shadows
(overwrites) an earlier entry. -/
structure State where
  registry : Registry
  infos : List (String × VersionRecord)
  dirs : List String
  files : List (String × String × DataFrame)
deriving DecidableEq, Repr

/-- `_initialize_registry` on a fresh deployment. -/
def initState (now : String) : State :=
  ⟨⟨[], none, now⟩, [], [], []⟩

/-- The linear scan `for v in registry["versions"]: if v["id"] == version_id`. -/
def findVersion (reg : Registry) (vid : String) : Option VersionRecord :=
  reg.versions.find? (fun v => v.id == vid)

/-- Replace the first version whose id matches (the Python code mutates
the found element in place and rewrites the document). -/
def updateFirstVersion : List VersionRecord → String → VersionRecord → List VersionRecord
  | [], _, _ => []
  | v :: rest, vid, newV =>
      if v.id == vid then newV :: rest else v :: updateFirstVersion rest vid newV

/-- Content of `<version_dir>/version_info.json`, if the file exists. -/
def getInfo (st : State) (vid : String) : Option VersionRecord :=
  (st.infos.find? (fun p => p.1 == vid)).map (·.2)

/-- Writing `version_info.json` (overwrites any previous content). -/
def setInfo (infos : List (String × VersionRecord)) (vid : String)
    (rec : VersionRecord) : List (String × VersionRecord) :=
  (vid, rec) :: infos

/-- Content of an artifact file, if it exists on disk. -/
def lookupFile (st : State) (vid fname : String) : Option DataFrame :=
  (st.files.find? (fun e => e.1 == vid && e.2.1 == fname)).map (·.2.2)

/-- `dataframe.to_parquet(filepath)` (overwrites an existing file). -/
def setFile (files : List (String × String × DataFrame)) (vid fname : String)
    (df : DataFrame) : List (String × String × DataFrame) :=
  (vid, fname, df) :: files

def dirExists (st : State) (vid : String) : Bool := st.dirs.contains vid

/-- `DATA_VERSION_DIR` (relative to the repository base directory). -/
def dataVersionDir : String := "data/versions"

/-- `os.path.join(self.version_dir, version_id, filename)`. -/
def versionFilePath (vid fname : String) : String :=
  dataVersionDir ++ "/" ++ vid ++ "/" ++ fname

/-- `str.endswith`, on the character sequence (byte-identical for the
ASCII suffixes used here). -/
def strEndsWith (s post : String) : Bool := post.data.isSuffixOf s.data

/-! ## Operations of `DataVersioner` -/

/-- `create_version`. The fresh uuid, the `utcnow` reading and the
`os.listdir` counts are explicit inputs; the trailing database mirror
call is an external collaborator and not part of the versioning state. -/
def create_version (st : State) (name : String) (description : Option String)
    (parent_version_id : Option String) (newId : String) (now : String)
    (rawCount processedCount : Nat) : State × String :=
  let registry := st.registry
  -- os.makedirs(version_dir, exist_ok=True)
  let dirs := if st.dirs.contains newId then st.dirs else newId :: st.dirs
  -- if parent_version_id is None and registry["versions"]:
  let parent :=
    if parent_version_id.isNone && !registry.versions.isEmpty then
      registry.latest_version
    else parent_version_id
  let version_record : VersionRecord :=
    ⟨newId, name, description, parent, now, [], rawCount, processedCount⟩
  let registry' : Registry :=
    { registry with
        versions := registry.versions ++ [version_record],
        latest_version := some newId }
  ({ st with
      registry := registry',
      dirs := dirs,
      infos := setInfo st.infos newId version_record }, newId)

/-- The filename `f"{data_type}_{timestamp}.parquet"`. -/
def mkFilename (data_type timestamp : String) : String :=
  data_type ++ "_" ++ timestamp ++ ".parquet"

/-- `add_data_to_version`. The strftime `timestamp` and the `utcnow`
reading are explicit inputs. Returns `none` where the Python returns
`None` (version not found). -/
def add_data_to_version (st : State) (version_id : String) (dataframe : DataFrame)
    (data_type : String) (timestamp : String) (now : String) : State × Option String :=
  match findVersion st.registry version_id with
  | none => (st, none)
  | some version =>
    let filename := mkFilename data_type timestamp
    let filepath := versionFilePath version_id filename
    let files := setFile st.files version_id filename dataframe
    let hash_value := calcHash dataframe
    let file_info : FileInfo :=
      ⟨filename, data_type, now, dataframe.rows.length, dataframe.columns, hash_value⟩
    let version' := { version with data_files := version.data_files ++ [file_info] }
    let registry' :=
      { st.registry with versions := updateFirstVersion st.registry.versions version_id version' }
    ({ st with
        registry := registry',
        files := files,
        infos := setInfo st.infos version_id version' }, some filepath)

/-- Column union in order of first appearance. -/
def listUnion (l1 l2 : List String) : List String :=
  l1 ++ l2.filter (fun c => !l1.contains c)

def unionCols (dfs : List DataFrame) : List String :=
  dfs.foldl (fun acc df => listUnion acc df.columns) []

/-- Cell of `row` under column label `c` (missing labels align as `NaN`,
serialized `null`). -/
def cellOf (cols : List String) (row : List Value) (c : String) : Value :=
  match cols.indexOf? c with
  | some i => row.getD i Value.null
  | none => Value.null

/-- Behavioural model of `pd.concat(dfs, ignore_index=True)`: with
identical column lists it appends the rows; otherwise it aligns on the
union of the columns, padding missing cells with `NaN`. -/
def pdConcat (dfs : List DataFrame) : DataFrame :=
  match dfs with
  | [] => emptyDF
  | first :: _ =>
    if dfs.all (fun df => df.columns == first.columns) then
      ⟨first.columns, (dfs.map (·.rows)).flatten⟩
    else
      let cols := unionCols dfs
      ⟨cols, (dfs.map (fun df => df.rows.map (fun r => cols.map (cellOf df.columns r)))).flatten⟩

/-- The `if data_type:` filter of `get_version_data`. A `data_type` of
`None` or `""` is falsy in Python, so no filter is applied. -/
def filterByType (data_type : Option String) (l : List FileInfo) : List FileInfo :=
  match data_type with
  | some d => if d.isEmpty then l else l.filter (fun f => f.data_type == d)
  | none => l

/-- The loop body of `get_version_data`:
`if os.path.exists(filepath) and filepath.endswith('.parquet')` load the
file, else skip it (with a warning log). -/
def loadDf (st : State) (vid : String) (f : FileInfo) : Option DataFrame :=
  match lookupFile st vid f.filename with
  | some df =>
      if strEndsWith (versionFilePath vid f.filename) ".parquet" then some df
      else none
  | none => none

/-- `get_version_data`. Returns `none` only where the Python raises an
uncaught exception (the version directory exists but its
`version_info.json` cannot be opened); `some df` models a normal return. -/
def get_version_data (st : State) (version_id : String)
    (data_type : Option String) : Option DataFrame :=
  if !dirExists st version_id then some emptyDF
  else
    match getInfo st version_id with
    | none => none
    | some version_info =>
      let data_files := filterByType data_type version_info.data_files
      if data_files.isEmpty then some emptyDF
      else
        let dfs := data_files.filterMap (loadDf st version_id)
        if dfs.isEmpty then some emptyDF
        else some (pdConcat dfs)

/-! ## Integrity verification -/

/-- One entry of the report's `details` list. Absent dict keys are
`none`. -/
structure VerifyDetail where
  filename : String
  status : String
  error : Option String
  rows : Option Nat
  expected_hash : Option String
  actual_hash : Option String
deriving DecidableEq, Repr

structure VerifyReport where
  version_id : String
  version_name : String
  files_checked : Nat
  files_valid : Nat
  files_invalid : Nat
  missing_files : Nat
  details : List VerifyDetail
  valid : Bool
deriving DecidableEq, Repr

/-- Result of `verify_version_integrity`: either the early
`{"valid": False, "error": "Version not found"}` dict or a full report. -/
inductive VerifyResult where
  | notFound
  | report (r : VerifyReport)
deriving DecidableEq, Repr

/-- The `for file_info in version_info["data_files"]` loop of
`verify_version_integrity`, threading the mutable counters. -/
def verifyLoop (st : State) (vid : String) : List FileInfo → VerifyReport → VerifyReport
  | [], acc => acc
  | fi :: rest, acc =>
    let acc := { acc with files_checked := acc.files_checked + 1 }
    let acc :=
      match lookupFile st vid fi.filename with
      | none =>
        { acc with
            missing_files := acc.missing_files + 1,
            details := acc.details ++ [⟨fi.filename, "missing", some "File not found", none, none, none⟩] }
      | some df =>
        let current_hash := calcHash df
        if current_hash == fi.hash then
          { acc with
              files_valid := acc.files_valid + 1,
              details := acc.details ++ [⟨fi.filename, "valid", none, some df.rows.length, none, none⟩] }
        else
          { acc with
              files_invalid := acc.files_invalid + 1,
              details := acc.details ++
                [⟨fi.filename, "invalid", some "Hash mismatch", none, some fi.hash, some current_hash⟩] }
    verifyLoop st vid rest acc

/-- `verify_version_integrity`. `none` models an uncaught exception
opening `version_info.json`; reading an artifact file never raises in
the model, so the source's `except` branch (status `"error"`, counted
invalid) is unreachable here. -/
def verify_version_integrity (st : State) (version_id : String) : Option VerifyResult :=
  if !dirExists st version_id then some .notFound
  else
    match getInfo st version_id with
    | none => none
    | some version_info =>
      let base : VerifyReport := ⟨version_id, version_info.name, 0, 0, 0, 0, [], false⟩
      let r := verifyLoop st version_id version_info.data_files base
      some (.report { r with valid := r.files_invalid == 0 && r.missing_files == 0 })

/-- The detail entry `verify_version_integrity` records for one
artifact (extracted from the loop body for the proofs below). -/
def detailOf (st : State) (vid : String) (fi : FileInfo) : VerifyDetail :=
  match lookupFile st vid fi.filename with
  | none => ⟨fi.filename, "missing", some "File not found", none, none, none⟩
  | some df =>
    if calcHash df == fi.hash then
      ⟨fi.filename, "valid", none, some df.rows.length, none, none⟩
    else
      ⟨fi.filename, "invalid", some "Hash mismatch", none, some fi.hash, some (calcHash df)⟩

/-- The classification the spec prescribes for one recorded artifact:
`valid` when the recomputed hash equals the recorded hash, `invalid`
when they differ, `missing` when the file is absent. -/
def specArtifactStatus (st : State) (vid : String) (fi : FileInfo) : String :=
  match lookupFile st vid fi.filename with
  | none => "missing"
  | some df => if calcHash df == fi.hash then "valid" else "invalid"

/-! ## Lineage traversal

Modelled from the spec: the repository's source has no `ancestors`
implementation (the spec's `LineageIndex` component, §4.5, is absent
from `src/`), so the traversal is modelled from the spec's words:
"walks parent pointers from the given version to a root (a version with
no parent), following at most as many hops as there are versions; fails
with `LineageCycleError` if a cycle is detected". -/

/-- The parent pointer of a version, `none` when the id does not
resolve or the version is a root. -/
def parentOf (reg : Registry) (vid : String) : Option String :=
  match findVersion reg vid with
  | some v => v.parent_id
  | none => none

/-- Fuel-bounded walk up the parent pointers; exhausting the fuel while
a parent pointer is still pending is the cycle detection. -/
def ancestorsGo (reg : Registry) : Nat → Option String → Except String (List String)
  | _, none => .ok []
  | 0, some _ => .error "LineageCycleError"
  | fuel + 1, some pid =>
    match ancestorsGo reg fuel (parentOf reg pid) with
    | .ok rest => .ok (pid :: rest)
    | .error e => .error e

/-- Modelled from the spec:
`ancestors(version_id) -> ordered sequence of version_id` (§4.5). -/
def ancestors (reg : Registry) (vid : String) : Except String (List String) :=
  ancestorsGo reg reg.versions.length (parentOf reg vid)

/-- `ParentChain reg cur chain`: starting from the pending pointer
`cur`, the parent pointers pass exactly through `chain` and end at a
root. Every link resolves in the registry. -/
inductive ParentChain (reg : Registry) : Option String → List String → Prop
  | nil : ParentChain reg none []
  | cons {pid : String} {v : VersionRecord} {rest : List String} :
      findVersion reg pid = some v →
      ParentChain reg v.parent_id rest →
      ParentChain reg (some pid) (pid :: rest)

/-- `k`-fold iteration of the parent pointer map. -/
def iterParent (reg : Registry) : Nat → Option String → Option String
  | 0, cur => cur
  | k + 1, cur => iterParent reg k (cur.bind (parentOf reg))

/-! ## Operation traces (for the append-only / unique-filename claim) -/

/-- One mutating call against the versioner, with its environmental
inputs (uuid, clock readings, directory counts) made explicit. -/
inductive Op where
  | createOp (name : String) (description : Option String) (parent : Option String)
      (newId : String) (now : String) (rawCount processedCount : Nat)
  | attachOp (vid : String) (df : DataFrame) (data_type : String)
      (timestamp : String) (now : String)
deriving DecidableEq, Repr

def applyOp (st : State) : Op → State
  | .createOp n d p i now rc pc => (create_version st n d p i now rc pc).1
  | .attachOp vid df dt ts now => (add_data_to_version st vid df dt ts now).1

def runOps (st : State) : List Op → State
  | [] => st
  | op :: rest => runOps (applyOp st op) rest

/-- The `(version id, generated filename)` key of an attach operation. -/
def attachKey : Op → Option (String × String)
  | .attachOp vid _ dt ts _ => some (vid, mkFilename dt ts)
  | _ => none

def attachKeys (ops : List Op) : List (String × String) := ops.filterMap attachKey

/-- `noOverwriteB st ops = true` iff, replaying `ops` from `st`, no
attach that reaches its `to_parquet` call writes to a path that already
holds an artifact file. -/
def noOverwriteB (st : State) : List Op → Bool
  | [] => true
  | op :: rest =>
    (match op with
     | .attachOp vid _ dt ts _ =>
         !(findVersion st.registry vid).isSome || (lookupFile st vid (mkFilename dt ts)).isNone
     | .createOp _ _ _ _ _ _ _ => true)
    && noOverwriteB (applyOp st op) rest

/-- Spec-side predicate: the artifact's file is present and its
recomputed hash equals the recorded hash. -/
def presentValid (st : State) (vid : String) (fi : FileInfo) : Bool :=
  match lookupFile st vid fi.filename with
  | some df => calcHash df == fi.hash
  | none => false

/-- Spec-side predicate: the artifact's file is present and its
recomputed hash differs from the recorded hash. -/
def presentInvalid (st : State) (vid : String) (fi : FileInfo) : Bool :=
  match lookupFile st vid fi.filename with
  | some df => !(calcHash df == fi.hash)
  | none => false

/-- Spec-side predicate: the artifact's file is absent. -/
def fileMissing (st : State) (vid : String) (fi : FileInfo) : Bool :=
  (lookupFile st vid fi.filename).isNone

/-! ## Concrete fixtures used by witnesses and counterexamples -/

def dfW1 : DataFrame := ⟨["city", "temp"], [[.str "London", .int 15], [.str "Tokyo", .int 22]]⟩

def dfW2 : DataFrame := ⟨["day", "mean"], [[.int 1, .int 7]]⟩

/-- A state with one version `va` and no artifacts. -/
def stA : State := (create_version (initState "t0") "A" none none "va" "t1" 0 0).1

/-- `stA` after attaching `dfW1` to `va` under kind `weather`. -/
def stB : State := (add_data_to_version stA "va" dfW1 "weather" "20240101_000000" "t2").1

/-- A version record with three artifacts: one intact, one whose
recorded hash does not match its stored content, one whose file is
absent. -/
def c2Rec : VersionRecord :=
  ⟨"vc", "C", none, none, "t1",
    [⟨"a_1.parquet", "a", "t", 2, ["city", "temp"], calcHash dfW1⟩,
     ⟨"b_1.parquet", "b", "t", 1, ["day", "mean"], "deadbeef"⟩,
     ⟨"c_1.parquet", "c", "t", 0, [], "00"⟩],
    0, 0⟩

def c2St : State :=
  ⟨⟨[c2Rec], some "vc", "t0"⟩, [("vc", c2Rec)], ["vc"],
   [("vc", "a_1.parquet", dfW1), ("vc", "b_1.parquet", dfW2)]⟩

/-- A version with two artifacts of divergent column sets, both stored. -/
def c7Rec : VersionRecord :=
  ⟨"v7", "S", none, none, "t1",
    [⟨"a_1.parquet", "a", "t", 1, ["x"], "h1"⟩,
     ⟨"b_1.parquet", "b", "t", 1, ["y"], "h2"⟩],
    0, 0⟩

def c7dfA : DataFrame := ⟨["x"], [[.int 1]]⟩

def c7dfB : DataFrame := ⟨["y"], [[.int 2]]⟩

def c7St : State :=
  ⟨⟨[c7Rec], some "v7", "t0"⟩, [("v7", c7Rec)], ["v7"],
   [("v7", "a_1.parquet", c7dfA), ("v7", "b_1.parquet", c7dfB)]⟩

/-- A version recording one artifact whose file is absent on disk. -/
def c8Rec : VersionRecord :=
  ⟨"v8", "M", none, none, "t1", [⟨"a_1.parquet", "a", "t", 1, ["x"], "h1"⟩], 0, 0⟩

def c8St : State := ⟨⟨[c8Rec], some "v8", "t0"⟩, [("v8", c8Rec)], ["v8"], []⟩

/-- A trace whose two attaches carry the same data kind and the same
second-resolution timestamp, so both generate the same filename. -/
def c6Ops : List Op :=
  [.createOp "A" none none "v1" "t1" 0 0,
   .attachOp "v1" dfW1 "weather" "20240101_000000" "t2",
   .attachOp "v1" dfW2 "weather" "20240101_000000" "t3"]

/-- The same trace with distinct timestamps. -/
def c6OkOps : List Op :=
  [.createOp "A" none none "v1" "t1" 0 0,
   .attachOp "v1" dfW1 "weather" "20240101_000000" "t2",
   .attachOp "v1" dfW2 "weather" "20240101_000001" "t3"]

/-- A registry with the three-version chain `c → b → a`. -/
def regChain : Registry :=
  ⟨[⟨"a", "A", none, none, "t1", [], 0, 0⟩,
    ⟨"b", "B", none, some "a", "t2", [], 0, 0⟩,
    ⟨"c", "C", none, some "b", "t3", [], 0, 0⟩], some "c", "t0"⟩

/-- A registry whose parent pointers form the cycle `a ↔ b` (the spec's
scenario of a registry document manipulated by hand). -/
def regCycle : Registry :=
  ⟨[⟨"a", "A", none, some "b", "t1", [], 0, 0⟩,
    ⟨"b", "B", none, some "a", "t2", [], 0, 0⟩], some "b", "t0"⟩

/-! ## Helper lemmas -/

theorem findVersion_eq_none {reg : Registry} {vid : String}
    (h : ∀ v ∈ reg.versions, v.id ≠ vid) : findVersion reg vid = none := by
  simp only [findVersion, List.find?_eq_none]
  intro v hv
  simpa using h v hv

theorem mem_updateFirstVersion {l : List VersionRecord} {vid : String}
    {newV x : VersionRecord} (h : x ∈ updateFirstVersion l vid newV) :
    x = newV ∨ x ∈ l := by
  induction l with
  | nil => simp [updateFirstVersion] at h
  | cons v rest ih =>
    simp only [updateFirstVersion] at h
    cases hv : v.id == vid with
    | true =>
      rw [hv, if_pos rfl] at h
      rcases List.mem_cons.mp h with h | h
      · exact Or.inl h
      · exact Or.inr (List.mem_cons_of_mem _ h)
    | false =>
      rw [hv] at h
      simp only [Bool.false_eq_true, if_false, List.mem_cons] at h
      rcases h with h | h
      · exact Or.inr (List.mem_cons.mpr (Or.inl h))
      · rcases ih h with h | h
        · exact Or.inl h
        · exact Or.inr (List.mem_cons_of_mem _ h)

theorem findVersion_updateFirst_self {l : List VersionRecord} {vid : String}
    {newV v : VersionRecord} (hid : newV.id = vid)
    (h : l.find? (fun w => w.id == vid) = some v) :
    (updateFirstVersion l vid newV).find? (fun w => w.id == vid) = some newV := by
  induction l with
  | nil => simp at h
  | cons w rest ih =>
    simp only [updateFirstVersion]
    cases hw : w.id == vid with
    | true =>
      rw [if_pos rfl]
      exact List.find?_cons_of_pos _ (by simp [hid])
    | false =>
      simp only [Bool.false_eq_true, if_false]
      rw [List.find?_cons_of_neg _ (by simp_all)] at h
      rw [List.find?_cons_of_neg _ (by simp_all)]
      exact ih h

theorem getInfo_of_infos {st : State} {vid : String} {rec : VersionRecord}
    {rest : List (String × VersionRecord)}
    (h : st.infos = (vid, rec) :: rest) : getInfo st vid = some rec := by
  simp [getInfo, h]

/-! ## C10 and C3: attach on an absent version id -/

/-- C10: for every version id absent from the registry's version list,
`add_data_to_version` returns `None` and leaves the state (registry
document, version-info files, artifact files) entirely unchanged. -/
theorem C10_attach_absent_id_noop (st : State) (vid : String) (df : DataFrame)
    (dt ts now : String) (h : ∀ v ∈ st.registry.versions, v.id ≠ vid) :
    add_data_to_version st vid df dt ts now = (st, none) := by
  have hf : findVersion st.registry vid = none := findVersion_eq_none h
  simp [add_data_to_version, hf]

theorem C10_witness :
    add_data_to_version stA "ghost" dfW1 "w" "ts" "t9" = (stA, none) :=
  C10_attach_absent_id_noop stA "ghost" dfW1 "w" "ts" "t9" (by decide)

/-- C3 counterexample: attaching to the absent id `ghost` does not fail
with `VersionNotFoundError` (or any exception): the call returns
normally with `None`, leaving the state unchanged. In the embedding a
raised exception is anything other than a normal `(state, result)`
return, so this normal return refutes the claimed failure mode. -/
theorem C3_counterexample :
    add_data_to_version stA "ghost" dfW1 "w" "ts" "t9" ≠ (stA, some "raised")
    ∧ add_data_to_version stA "ghost" dfW1 "w" "ts" "t9" = (stA, none) := by
  constructor
  · decide
  · decide

/-- C3 amended: on an id absent from the registry, `add_data_to_version`
logs an error and returns `None` with the state unchanged (it does not
raise `VersionNotFoundError`, which does not exist in the code); on a
present id it appends the artifact descriptor to the first matching
version's descriptor list, rewrites the registry document, and returns
the artifact's filepath. -/
theorem C3_attach_behaviour (st : State) (vid : String) (df : DataFrame)
    (dt ts now : String) :
    (findVersion st.registry vid = none →
      add_data_to_version st vid df dt ts now = (st, none))
    ∧ (∀ rec, findVersion st.registry vid = some rec →
        (add_data_to_version st vid df dt ts now).1.registry.versions =
          updateFirstVersion st.registry.versions vid
            { rec with data_files := rec.data_files ++
                [⟨mkFilename dt ts, dt, now, df.rows.length, df.columns, calcHash df⟩] }
        ∧ findVersion (add_data_to_version st vid df dt ts now).1.registry vid =
            some { rec with data_files := rec.data_files ++
                [⟨mkFilename dt ts, dt, now, df.rows.length, df.columns, calcHash df⟩] }
        ∧ (add_data_to_version st vid df dt ts now).2 =
            some (versionFilePath vid (mkFilename dt ts))) := by
  constructor
  · intro h
    simp [add_data_to_version, h]
  · intro rec h
    have hid : rec.id = vid := by
      have := List.find?_some h
      simpa using this
    refine ⟨?_, ?_, ?_⟩
    · simp [add_data_to_version, h]
    · simp only [add_data_to_version, h]
      exact findVersion_updateFirst_self hid h
    · simp [add_data_to_version, h]

theorem C3_witness :
    (add_data_to_version stA "va" dfW1 "weather" "20240101_000000" "t2").2 =
      some (versionFilePath "va" (mkFilename "weather" "20240101_000000"))
    ∧ findVersion (add_data_to_version stA "va" dfW1 "weather" "20240101_000000" "t2").1.registry
        "va" = some { (findVersion stA.registry "va").get (by decide) with
          data_files := ((findVersion stA.registry "va").get (by decide)).data_files ++
            [⟨mkFilename "weather" "20240101_000000", "weather", "t2",
              dfW1.rows.length, dfW1.columns, calcHash dfW1⟩] } := by
  have h := C3_attach_behaviour stA "va" dfW1 "weather" "20240101_000000" "t2"
  have hfind : findVersion stA.registry "va" =
      some ((findVersion stA.registry "va").get (by decide)) := by decide
  exact ⟨(h.2 _ hfind).2.2, (h.2 _ hfind).2.1⟩

/-! ## C4: no parent validation in `create_version` -/

/-- C4 counterexample: `create_version` on an empty registry with the
explicit parent id `ghost` (which resolves to no version) does not fail
with `ParentNotFoundError`; it adds a new version recording the
dangling parent. -/
theorem C4_counterexample :
    ((create_version (initState "t0") "A" none (some "ghost") "va" "t1" 0 0).1.registry.versions.map
        (fun v => (v.id, v.parent_id))) = [("va", some "ghost")]
    ∧ ∀ v ∈ (initState "t0").registry.versions, v.id ≠ "ghost" := by
  constructor
  · decide
  · decide

/-- C4 amended: `create_version` performs no parent validation: for
every explicitly supplied `parent_id`, even one matching no version in
the registry, it succeeds and appends a new version recording exactly
that parent id, and advances the latest pointer. -/
theorem C4_create_accepts_any_parent (st : State) (name : String)
    (desc : Option String) (pid newId now : String) (rc pc : Nat) :
    (create_version st name desc (some pid) newId now rc pc).1.registry.versions =
      st.registry.versions ++ [⟨newId, name, desc, some pid, now, [], rc, pc⟩]
    ∧ (create_version st name desc (some pid) newId now rc pc).1.registry.latest_version =
      some newId := by
  constructor <;> simp [create_version]

/-! ## C5: implicit parent is the prior latest pointer -/

/-- C5: `create_version` with no explicit parent, called when the
registry already holds at least one version, appends a new version
whose `parent_id` is exactly the registry's `latest_version` pointer as
it was before the call. -/
theorem C5_default_parent_is_latest (st : State) (name : String) (desc : Option String)
    (newId now : String) (rc pc : Nat) (h : st.registry.versions ≠ []) :
    (create_version st name desc none newId now rc pc).1.registry.versions =
      st.registry.versions ++
        [⟨newId, name, desc, st.registry.latest_version, now, [], rc, pc⟩] := by
  have he : st.registry.versions.isEmpty = false := by
    simpa using h
  simp [create_version, he]

theorem C5_witness :
    (create_version stA "B" none none "vb" "t2" 1 2).1.registry.versions =
      stA.registry.versions ++
        [⟨"vb", "B", none, stA.registry.latest_version, "t2", [], 1, 2⟩] :=
  C5_default_parent_is_latest stA "B" none "vb" "t2" 1 2 (by decide)

/-! ## C2: integrity verification -/

theorem status_detailOf (st : State) (vid : String) (fi : FileInfo) :
    (detailOf st vid fi).status = specArtifactStatus st vid fi := by
  unfold detailOf specArtifactStatus
  rcases lookupFile st vid fi.filename with _ | df
  · rfl
  · dsimp only
    cases calcHash df == fi.hash <;> simp

/-- Closed form of the verification loop: it threads the accumulator,
counting each artifact once and recording its detail entry in order. -/
theorem verifyLoop_eq (st : State) (vid : String) (files : List FileInfo)
    (acc : VerifyReport) :
    verifyLoop st vid files acc =
      { acc with
          files_checked := acc.files_checked + files.length,
          files_valid := acc.files_valid + files.countP (presentValid st vid),
          files_invalid := acc.files_invalid + files.countP (presentInvalid st vid),
          missing_files := acc.missing_files + files.countP (fileMissing st vid),
          details := acc.details ++ files.map (detailOf st vid) } := by
  induction files generalizing acc with
  | nil => simp [verifyLoop]
  | cons fi rest ih =>
    simp only [verifyLoop]
    rcases hl : lookupFile st vid fi.filename with _ | df
    · simp only [hl]
      rw [ih]
      simp [presentValid, presentInvalid, fileMissing, detailOf, hl, List.countP_cons,
        VerifyReport.mk.injEq, List.append_assoc]
      omega
    · simp only [hl]
      cases hh : calcHash df == fi.hash
      · simp only [hh, Bool.false_eq_true, if_false]
        rw [ih]
        simp [presentValid, presentInvalid, fileMissing, detailOf, hl, hh, List.countP_cons,
          VerifyReport.mk.injEq, List.append_assoc]
        omega
      · simp only [hh, if_true]
        rw [ih]
        simp [presentValid, presentInvalid, fileMissing, detailOf, hl, hh, List.countP_cons,
          VerifyReport.mk.injEq, List.append_assoc]
        omega

/-- C2: when the version's directory and `version_info.json` exist,
`verify_version_integrity` returns a report (it never raises for
per-artifact failures); each recorded artifact is classified `valid`
when its recomputed hash equals the recorded hash, `invalid` when they
differ, and `missing` when the file is absent; the counters aggregate
those classes; and the report's overall `valid` field is `true` iff the
invalid and missing counts are both zero. -/
theorem C2_verify_classification (st : State) (vid : String) (info : VersionRecord)
    (hdir : dirExists st vid = true) (hinfo : getInfo st vid = some info) :
    ∃ rep, verify_version_integrity st vid = some (.report rep)
      ∧ rep.details.map VerifyDetail.status = info.data_files.map (specArtifactStatus st vid)
      ∧ rep.files_checked = info.data_files.length
      ∧ rep.files_valid = info.data_files.countP (presentValid st vid)
      ∧ rep.files_invalid = info.data_files.countP (presentInvalid st vid)
      ∧ rep.missing_files = info.data_files.countP (fileMissing st vid)
      ∧ (rep.valid = true ↔ rep.files_invalid = 0 ∧ rep.missing_files = 0) := by
  have hst : (fun fi => (detailOf st vid fi).status) = specArtifactStatus st vid :=
    funext (status_detailOf st vid)
  refine ⟨⟨vid, info.name, info.data_files.length,
      info.data_files.countP (presentValid st vid),
      info.data_files.countP (presentInvalid st vid),
      info.data_files.countP (fileMissing st vid),
      info.data_files.map (detailOf st vid),
      info.data_files.countP (presentInvalid st vid) == 0 &&
        info.data_files.countP (fileMissing st vid) == 0⟩, ?_, ?_, ?_, ?_, ?_, ?_, ?_⟩
  · simp [verify_version_integrity, hdir, hinfo, verifyLoop_eq]
  · simp [List.map_map, Function.comp_def, hst]
  · rfl
  · rfl
  · rfl
  · rfl
  · simp

theorem C2_witness :
    ∃ rep, verify_version_integrity c2St "vc" = some (.report rep)
      ∧ rep.details.map VerifyDetail.status =
          c2Rec.data_files.map (specArtifactStatus c2St "vc")
      ∧ rep.files_checked = c2Rec.data_files.length
      ∧ rep.files_valid = c2Rec.data_files.countP (presentValid c2St "vc")
      ∧ rep.files_invalid = c2Rec.data_files.countP (presentInvalid c2St "vc")
      ∧ rep.missing_files = c2Rec.data_files.countP (fileMissing c2St "vc")
      ∧ (rep.valid = true ↔ rep.files_invalid = 0 ∧ rep.missing_files = 0) :=
  C2_verify_classification c2St "vc" c2Rec (by decide) (by decide)

/-! ## C1: write/read round-trip plus integrity of the new artifact -/

theorem strEndsWith_append (s t : String) : strEndsWith (s ++ t) t = true := by
  simp [strEndsWith, String.data_append]

theorem mkFilename_parquet (vid dt ts : String) :
    strEndsWith (versionFilePath vid (mkFilename dt ts)) ".parquet" = true := by
  have h : versionFilePath vid (mkFilename dt ts) =
      (dataVersionDir ++ "/" ++ vid ++ "/" ++ (dt ++ "_" ++ ts)) ++ ".parquet" := by
    simp [versionFilePath, mkFilename, String.append_assoc]
  rw [h]
  exact strEndsWith_append _ _

theorem listUnion_nil (l : List String) : listUnion [] l = l := by
  simp [listUnion]

theorem pdConcat_singleton (df : DataFrame) : pdConcat [df] = df := by
  simp [pdConcat]

theorem lookupFile_of_files {st : State} {vid fn : String} {df : DataFrame}
    {rest : List (String × String × DataFrame)}
    (h : st.files = (vid, fn, df) :: rest) : lookupFile st vid fn = some df := by
  simp [lookupFile, h]

/-- C1 counterexample: version `va` is present in `stB`'s registry and
already holds a `weather` artifact, so writing the batch `dfW2` under
kind `weather` and reading that kind back returns the concatenation of
both artifacts, not `dfW2`. -/
theorem C1_counterexample :
    (findVersion stB.registry "va").isSome = true
    ∧ get_version_data
        (add_data_to_version stB "va" dfW2 "weather" "20240102_000000" "t3").1
        "va" (some "weather") ≠ some dfW2 := by
  constructor
  · decide
  · decide

/-- C1 amended: for every version id present in the registry whose
record holds no artifact of kind `k` yet, and a non-empty kind string
(an empty kind is falsy in Python and disables the read filter),
writing `df` under kind `k` and then loading that kind returns exactly
`df`, and the integrity check run with the stored file untouched
records the new artifact as `valid` in its report. -/
theorem C1_roundtrip (st : State) (vid : String) (rec : VersionRecord) (df : DataFrame)
    (k ts now : String)
    (hfound : findVersion st.registry vid = some rec)
    (hnok : ∀ f ∈ rec.data_files, f.data_type ≠ k)
    (hk : k ≠ "")
    (hdir : dirExists st vid = true) :
    get_version_data (add_data_to_version st vid df k ts now).1 vid (some k) = some df
    ∧ ∃ rep, verify_version_integrity (add_data_to_version st vid df k ts now).1 vid
          = some (.report rep)
        ∧ (⟨mkFilename k ts, "valid", none, some df.rows.length, none, none⟩ : VerifyDetail)
            ∈ rep.details := by
  have hadd : (add_data_to_version st vid df k ts now).1 =
      { st with
          registry := { st.registry with
            versions := updateFirstVersion st.registry.versions vid
              { rec with data_files := rec.data_files ++
                  [⟨mkFilename k ts, k, now, df.rows.length, df.columns, calcHash df⟩] } },
          files := (vid, mkFilename k ts, df) :: st.files,
          infos := (vid, { rec with data_files := rec.data_files ++
              [⟨mkFilename k ts, k, now, df.rows.length, df.columns, calcHash df⟩] }) ::
            st.infos } := by
    simp [add_data_to_version, hfound, setFile, setInfo]
  rw [hadd]
  have hdir' : dirExists
      { st with
          registry := { st.registry with
            versions := updateFirstVersion st.registry.versions vid
              { rec with data_files := rec.data_files ++
                  [⟨mkFilename k ts, k, now, df.rows.length, df.columns, calcHash df⟩] } },
          files := (vid, mkFilename k ts, df) :: st.files,
          infos := (vid, { rec with data_files := rec.data_files ++
              [⟨mkFilename k ts, k, now, df.rows.length, df.columns, calcHash df⟩] }) ::
            st.infos } vid = true := hdir
  have hinfo' : getInfo
      { st with
          registry := { st.registry with
            versions := updateFirstVersion st.registry.versions vid
              { rec with data_files := rec.data_files ++
                  [⟨mkFilename k ts, k, now, df.rows.length, df.columns, calcHash df⟩] } },
          files := (vid, mkFilename k ts, df) :: st.files,
          infos := (vid, { rec with data_files := rec.data_files ++
              [⟨mkFilename k ts, k, now, df.rows.length, df.columns, calcHash df⟩] }) ::
            st.infos } vid =
      some { rec with data_files := rec.data_files ++
          [⟨mkFilename k ts, k, now, df.rows.length, df.columns, calcHash df⟩] } :=
    getInfo_of_infos rfl
  have hlook : lookupFile
      { st with
          registry := { st.registry with
            versions := updateFirstVersion st.registry.versions vid
              { rec with data_files := rec.data_files ++
                  [⟨mkFilename k ts, k, now, df.rows.length, df.columns, calcHash df⟩] } },
          files := (vid, mkFilename k ts, df) :: st.files,
          infos := (vid, { rec with data_files := rec.data_files ++
              [⟨mkFilename k ts, k, now, df.rows.length, df.columns, calcHash df⟩] }) ::
            st.infos } vid (mkFilename k ts) = some df :=
    lookupFile_of_files rfl
  have hke : k.isEmpty = false := by
    cases h : k.isEmpty
    · rfl
    · exact absurd ((String.isEmpty_iff k).mp h) hk
  have hfilter : filterByType (some k)
      (rec.data_files ++ [⟨mkFilename k ts, k, now, df.rows.length, df.columns, calcHash df⟩]) =
      [⟨mkFilename k ts, k, now, df.rows.length, df.columns, calcHash df⟩] := by
    simp only [filterByType, hke, Bool.false_eq_true, if_false, List.filter_append]
    rw [List.filter_eq_nil_iff.mpr (fun f hf => by simp [hnok f hf])]
    simp
  constructor
  · simp only [get_version_data, hdir', Bool.not_true, Bool.false_eq_true, if_false, hinfo',
      hfilter]
    simp only [List.isEmpty_cons, List.filterMap_cons, loadDf, hlook, mkFilename_parquet,
      if_true, Bool.false_eq_true]
    simp [pdConcat_singleton]
  · simp only [verify_version_integrity, hdir', Bool.not_true, Bool.false_eq_true, if_false,
      hinfo', verifyLoop_eq]
    refine ⟨_, rfl, ?_⟩
    simp only [List.nil_append, List.map_append]
    refine List.mem_append_right _ ?_
    have hd : detailOf
        { st with
          registry := { st.registry with
            versions := updateFirstVersion st.registry.versions vid
              { rec with data_files := rec.data_files ++
                  [⟨mkFilename k ts, k, now, df.rows.length, df.columns, calcHash df⟩] } },
          files := (vid, mkFilename k ts, df) :: st.files,
          infos := (vid, { rec with data_files := rec.data_files ++
              [⟨mkFilename k ts, k, now, df.rows.length, df.columns, calcHash df⟩] }) ::
            st.infos } vid
        ⟨mkFilename k ts, k, now, df.rows.length, df.columns, calcHash df⟩ =
        ⟨mkFilename k ts, "valid", none, some df.rows.length, none, none⟩ := by
      simp [detailOf, hlook]
    simp [hd]

theorem C1_witness :
    get_version_data (add_data_to_version stA "va" dfW1 "weather" "20240101_000000" "t2").1
        "va" (some "weather") = some dfW1
    ∧ ∃ rep, verify_version_integrity
          (add_data_to_version stA "va" dfW1 "weather" "20240101_000000" "t2").1 "va"
        = some (.report rep)
        ∧ (⟨mkFilename "weather" "20240101_000000", "valid", none, some dfW1.rows.length,
            none, none⟩ : VerifyDetail) ∈ rep.details :=
  C1_roundtrip stA "va" ((findVersion stA.registry "va").get (by decide)) dfW1
    "weather" "20240101_000000" "t2" (by decide) (by decide) (by decide) (by decide)

/-! ## C7: divergent columns are padded, not rejected -/

/-- C7 counterexample: version `v7` holds two artifacts with column
sets `["x"]` and `["y"]`; loading it returns normally (no
`SchemaMismatchError`, which does not exist in the code) with the
column union and `NaN`/`null` padding. -/
theorem C7_counterexample :
    c7dfA.columns ≠ c7dfB.columns
    ∧ get_version_data c7St "v7" none =
        some ⟨["x", "y"], [[.int 1, .null], [.null, .int 2]]⟩ := by
  constructor
  · decide
  · decide

/-- C7 amended: for every version whose metadata is readable, loading
never fails, whatever the artifacts' column sets; and whenever the
loaded matching artifacts (any number of them, under any kind filter,
with unloadable files already skipped) do not all carry the identical
column list, the result is `pd.concat`'s alignment: the union of the
columns in order of first appearance, each row's missing cells padded
with `NaN` (serialized `null`). -/
theorem C7_divergent_columns_pad (st : State) (vid : String) (info : VersionRecord)
    (dtype : Option String)
    (hdir : dirExists st vid = true)
    (hinfo : getInfo st vid = some info) :
    (∃ df, get_version_data st vid dtype = some df)
    ∧ (∀ d0 ds,
        (filterByType dtype info.data_files).filterMap (loadDf st vid) = d0 :: ds →
        ¬ (∀ df ∈ d0 :: ds, df.columns = d0.columns) →
        get_version_data st vid dtype =
          some ⟨unionCols (d0 :: ds),
            ((d0 :: ds).map (fun df =>
              df.rows.map (fun r => (unionCols (d0 :: ds)).map (cellOf df.columns r)))).flatten⟩) := by
  constructor
  · simp only [get_version_data, hdir, Bool.not_true, Bool.false_eq_true, if_false, hinfo]
    split
    · exact ⟨_, rfl⟩
    · split
      · exact ⟨_, rfl⟩
      · exact ⟨_, rfl⟩
  · intro d0 ds hdfs hdiv
    have hFne : (filterByType dtype info.data_files).isEmpty = false := by
      rw [List.isEmpty_eq_false]
      intro h
      rw [h] at hdfs
      simp at hdfs
    have hall : ((d0 :: ds).all (fun df => df.columns == d0.columns)) = false := by
      rw [Bool.eq_false_iff]
      intro h
      refine hdiv ?_
      intro df hdf
      simpa using List.all_eq_true.mp h df hdf
    simp only [get_version_data, hdir, Bool.not_true, Bool.false_eq_true, if_false, hinfo,
      hFne, hdfs, List.isEmpty_cons]
    simp [pdConcat, hall]

theorem C7_witness :
    (∃ df, get_version_data c7St "v7" none = some df)
    ∧ get_version_data c7St "v7" none =
        some ⟨unionCols [c7dfA, c7dfB],
          ([c7dfA, c7dfB].map (fun df =>
            df.rows.map (fun r => (unionCols [c7dfA, c7dfB]).map (cellOf df.columns r)))).flatten⟩ := by
  have h := C7_divergent_columns_pad c7St "v7" c7Rec none (by decide) (by decide)
  exact ⟨h.1, h.2 c7dfA [c7dfB] (by decide) (by decide)⟩

/-! ## C8: artifacts with absent files are skipped, not surfaced -/

theorem filterByType_append (dt : Option String) (a b : List FileInfo) :
    filterByType dt (a ++ b) = filterByType dt a ++ filterByType dt b := by
  rcases dt with _ | d
  · rfl
  · simp only [filterByType]
    split
    · rfl
    · simp [List.filter_append]

/-- C8 counterexample: version `v8` records one artifact whose file is
absent, yet reading returns normally with an empty dataframe (no
`ArtifactMissingError`, which does not exist in the code; the file is
skipped with a warning log). -/
theorem C8_counterexample :
    c8St.registry.versions.map (fun v => v.data_files.length) = [1]
    ∧ get_version_data c8St "v8" none = some emptyDF := by
  constructor
  · decide
  · decide

theorem ifChain_empty (F : List FileInfo) (L : FileInfo → Option DataFrame)
    (h : F.filterMap L = []) :
    (if F.isEmpty = true then some emptyDF
     else if (F.filterMap L).isEmpty = true then some emptyDF
     else some (pdConcat (F.filterMap L))) = some emptyDF := by
  split
  · rfl
  · rw [h]
    rfl

/-- C8 amended: an artifact descriptor whose file is absent at read
time is silently skipped: the read returns exactly what it would return
had the descriptor not been recorded at all, and it always returns a
dataframe (never an error) when the version's metadata is readable. -/
theorem C8_missing_file_skipped (st : State) (vid : String) (info : VersionRecord)
    (f : FileInfo) (pre post : List FileInfo) (dtype : Option String)
    (hinfo : getInfo st vid = some info)
    (hfiles : info.data_files = pre ++ f :: post)
    (hmissing : lookupFile st vid f.filename = none) :
    get_version_data st vid dtype =
      get_version_data
        { st with infos := setInfo st.infos vid { info with data_files := pre ++ post } }
        vid dtype
    ∧ ∃ df, get_version_data st vid dtype = some df := by
  have hinfo' : getInfo
      { st with infos := setInfo st.infos vid { info with data_files := pre ++ post } }
      vid = some { info with data_files := pre ++ post } := getInfo_of_infos rfl
  have hldf : loadDf st vid f = none := by simp [loadDf, hmissing]
  have hM : List.filterMap (loadDf st vid) (filterByType dtype [f]) = [] := by
    rcases dtype with _ | d
    · simp [filterByType, hldf]
    · simp only [filterByType]
      split
      · simp [hldf]
      · by_cases hp : (f.data_type == d) = true
        · simp [List.filter_cons, hp, hldf]
        · simp [List.filter_cons, hp]
  cases hd : dirExists st vid
  · have l1 : get_version_data st vid dtype = some emptyDF := by
      simp [get_version_data, hd]
    have l2 : get_version_data
        { st with infos := setInfo st.infos vid { info with data_files := pre ++ post } }
        vid dtype = some emptyDF := by
      have hd2 : dirExists
          { st with infos := setInfo st.infos vid { info with data_files := pre ++ post } }
          vid = false := hd
      simp [get_version_data, hd2]
    exact ⟨l1.trans l2.symm, ⟨_, l1⟩⟩
  · have hd2 : dirExists
        { st with infos := setInfo st.infos vid { info with data_files := pre ++ post } }
        vid = true := hd
    have hL : loadDf
        { st with infos := setInfo st.infos vid { info with data_files := pre ++ post } }
        vid = loadDf st vid := rfl
    have hsplit : filterByType dtype (pre ++ f :: post) =
        filterByType dtype pre ++ (filterByType dtype [f] ++ filterByType dtype post) := by
      rw [show pre ++ f :: post = pre ++ ([f] ++ post) from by simp,
        filterByType_append, filterByType_append]
    simp only [get_version_data, hd, hd2, Bool.not_true, Bool.false_eq_true, if_false, hinfo,
      hinfo', hfiles, hL, hsplit, filterByType_append]
    have hdfs : List.filterMap (loadDf st vid)
        (filterByType dtype pre ++ (filterByType dtype [f] ++ filterByType dtype post)) =
        List.filterMap (loadDf st vid) (filterByType dtype pre ++ filterByType dtype post) := by
      simp [List.filterMap_append, hM]
    cases hAB : (filterByType dtype pre ++ filterByType dtype post).isEmpty
    · have hne : (filterByType dtype pre ++ (filterByType dtype [f] ++ filterByType dtype post)).isEmpty = false := by
        rcases List.isEmpty_eq_false.mp hAB with h
        simp only [List.isEmpty_eq_false] at *
        simp only [ne_eq, List.append_eq_nil] at *
        tauto
      simp only [hne, hAB, Bool.false_eq_true, if_false, hdfs]
      refine ⟨trivial, ?_⟩
      split
      · exact ⟨_, rfl⟩
      · exact ⟨_, rfl⟩
    · have hA : filterByType dtype pre = [] := (List.append_eq_nil.mp (List.isEmpty_iff.mp hAB)).1
      have hB : filterByType dtype post = [] := (List.append_eq_nil.mp (List.isEmpty_iff.mp hAB)).2
      have hLM : List.filterMap (loadDf st vid)
          (filterByType dtype pre ++ (filterByType dtype [f] ++ filterByType dtype post)) = [] := by
        simp [List.filterMap_append, hM, hA, hB]
      simp only [hAB, if_true]
      exact ⟨ifChain_empty _ _ hLM, ⟨_, ifChain_empty _ _ hLM⟩⟩

theorem C8_witness :
    get_version_data c8St "v8" none =
      get_version_data
        { c8St with infos := setInfo c8St.infos "v8" { c8Rec with data_files := [] ++ [] } }
        "v8" none
    ∧ ∃ df, get_version_data c8St "v8" none = some df :=
  C8_missing_file_skipped c8St "v8" c8Rec ⟨"a_1.parquet", "a", "t", 1, ["x"], "h1"⟩
    [] [] none (by decide) (by decide) (by decide)

/-! ## C9: lineage traversal (spec-modelled) -/

theorem ancestorsGo_none (reg : Registry) (fuel : Nat) :
    ancestorsGo reg fuel none = .ok [] := by
  cases fuel <;> rfl

theorem ancestorsGo_of_chain {reg : Registry} {cur : Option String} {chain : List String}
    (h : ParentChain reg cur chain) :
    ∀ fuel, chain.length ≤ fuel → ancestorsGo reg fuel cur = Except.ok chain := by
  induction h with
  | nil => intro fuel _; exact ancestorsGo_none reg fuel
  | cons hfind hch ih =>
    rename_i pid v rest
    intro fuel hlen
    rcases fuel with _ | f
    · exact absurd hlen (by simp)
    · have hp : parentOf reg pid = v.parent_id := by
        rw [parentOf, hfind]
      simp only [ancestorsGo, hp, ih f (Nat.le_of_succ_le_succ hlen)]

theorem ancestorsGo_length_le {reg : Registry} :
    ∀ fuel (cur : Option String) l, ancestorsGo reg fuel cur = Except.ok l →
      l.length ≤ fuel := by
  intro fuel
  induction fuel with
  | zero =>
    intro cur l h
    rcases cur with _ | pid
    · rw [ancestorsGo_none] at h
      cases h
      simp
    · simp [ancestorsGo] at h
  | succ f ih =>
    intro cur l h
    rcases cur with _ | pid
    · rw [ancestorsGo_none] at h
      cases h
      simp
    · simp only [ancestorsGo] at h
      rcases hg : ancestorsGo reg f (parentOf reg pid) with e | rest
      · rw [hg] at h; cases h
      · rw [hg] at h
        cases h
        simpa using Nat.succ_le_succ (ih _ _ hg)

theorem chain_mem_ids {reg : Registry} {cur : Option String} {chain : List String}
    (h : ParentChain reg cur chain) :
    ∀ x ∈ chain, x ∈ reg.versions.map (fun v => v.id) := by
  induction h with
  | nil => simp
  | cons hfind hch ih =>
    rename_i pid v rest
    intro x hx
    rcases List.mem_cons.mp hx with hx | hx
    · subst hx
      have hmem := List.mem_of_find?_eq_some hfind
      have hbeq := List.find?_some hfind
      have hid : v.id = x := by simpa using hbeq
      exact List.mem_map.mpr ⟨v, hmem, hid⟩
    · exact ih x hx

theorem nodup_subset_length {l₁ l₂ : List String} (h1 : l₁.Nodup)
    (h2 : ∀ x ∈ l₁, x ∈ l₂) : l₁.length ≤ l₂.length := by
  calc l₁.length = l₁.toFinset.card := (List.toFinset_card_of_nodup h1).symm
    _ ≤ l₂.toFinset.card := by
        refine Finset.card_le_card ?_
        intro x hx
        rw [List.mem_toFinset] at *
        exact h2 x hx
    _ ≤ l₂.length := List.toFinset_card_le l₂

theorem ancestorsGo_cycle {reg : Registry} :
    ∀ fuel (cur : Option String),
      (∀ k, k ≤ fuel → iterParent reg k cur ≠ none) →
      ancestorsGo reg fuel cur = Except.error "LineageCycleError" := by
  intro fuel
  induction fuel with
  | zero =>
    intro cur h
    rcases cur with _ | pid
    · exact absurd (show iterParent reg 0 none = none from rfl) (h 0 (Nat.le_refl 0))
    · rfl
  | succ f ih =>
    intro cur h
    rcases cur with _ | pid
    · exact absurd (show iterParent reg 0 none = none from rfl) (h 0 (Nat.zero_le _))
    · have hrec : ancestorsGo reg f (parentOf reg pid) = Except.error "LineageCycleError" := by
        apply ih
        intro k hk
        have h2 := h (k + 1) (Nat.succ_le_succ hk)
        simpa [iterParent] using h2
      simp only [ancestorsGo, hrec]

/-- C9: `ancestors` always terminates, returning at most as many hops
as there are versions: on a version with no (resolving) parent pointer
it returns the empty sequence; on an acyclic chain of parent pointers
it returns the ancestor ids in parent-to-root order; and when the
parent pointers never reach a root within the version count (a cycle)
it fails with `LineageCycleError` instead of looping. -/
theorem C9_ancestors (reg : Registry) (vid : String) :
    (parentOf reg vid = none → ancestors reg vid = .ok [])
    ∧ (∀ l, ancestors reg vid = .ok l → l.length ≤ reg.versions.length)
    ∧ (∀ chain, ParentChain reg (parentOf reg vid) chain → chain.Nodup →
        ancestors reg vid = .ok chain)
    ∧ ((∀ k, k ≤ reg.versions.length → iterParent reg k (parentOf reg vid) ≠ none) →
        ancestors reg vid = .error "LineageCycleError") := by
  refine ⟨?_, ?_, ?_, ?_⟩
  · intro h
    rw [ancestors, h, ancestorsGo_none]
  · intro l h
    exact ancestorsGo_length_le _ _ _ h
  · intro chain hchain hnodup
    refine ancestorsGo_of_chain hchain _ ?_
    refine nodup_subset_length hnodup (chain_mem_ids hchain) |>.trans ?_
    simp
  · intro h
    exact ancestorsGo_cycle _ _ h

theorem C9_witness :
    ancestors regChain "c" = .ok ["b", "a"]
    ∧ ancestors regCycle "a" = .error "LineageCycleError" := by
  constructor
  · have hb : findVersion regChain "b" =
        some ⟨"b", "B", none, some "a", "t2", [], 0, 0⟩ := by decide
    have ha : findVersion regChain "a" =
        some ⟨"a", "A", none, none, "t1", [], 0, 0⟩ := by decide
    refine (C9_ancestors regChain "c").2.2.1 ["b", "a"] ?_ (by decide)
    show ParentChain regChain (some "b") ["b", "a"]
    exact ParentChain.cons hb (ParentChain.cons ha ParentChain.nil)
  · exact (C9_ancestors regCycle "a").2.2.2 (by decide)

/-! ## C6: per-version filename uniqueness along operation traces -/

/-- C6 counterexample: replaying `c6Ops` (create `v1`, then two
attaches of kind `weather` within the same strftime second) reaches a
registry state in which `v1` records the same filename twice, and the
second attach overwrites the first artifact's file. -/
theorem C6_counterexample :
    ¬ ((∀ v ∈ (runOps (initState "t0") c6Ops).registry.versions,
          (v.data_files.map (fun f => f.filename)).Nodup)
       ∧ noOverwriteB (initState "t0") c6Ops = true) := by
  decide

/-- Invariant carried along a trace: pairwise-distinct pending attach
keys keep every version's recorded filenames distinct and keep every
write on a fresh path. -/
theorem runOps_names_nodup (ops : List Op) :
    ∀ st : State, (attachKeys ops).Nodup →
      (∀ v ∈ st.registry.versions, (v.data_files.map (fun f => f.filename)).Nodup) →
      (∀ v ∈ st.registry.versions, ∀ f ∈ v.data_files,
        (v.id, f.filename) ∉ attachKeys ops) →
      (∀ e ∈ st.files, (e.1, e.2.1) ∉ attachKeys ops) →
      (∀ v ∈ (runOps st ops).registry.versions,
          (v.data_files.map (fun f => f.filename)).Nodup)
      ∧ noOverwriteB st ops = true := by
  induction ops with
  | nil => exact fun st _ h1 _ _ => ⟨h1, rfl⟩
  | cons op rest ih =>
    intro st h2 h1 h3 h4
    rcases op with ⟨n, d, p, i, nw, rc, pc⟩ | ⟨vid, df, dt, ts, nw⟩
    · -- createOp: the new version has no artifacts yet
      have hstep : applyOp st (Op.createOp n d p i nw rc pc) =
          { st with
              registry := { st.registry with
                versions := st.registry.versions ++
                  [⟨i, n, d,
                    if p.isNone && !st.registry.versions.isEmpty then
                      st.registry.latest_version
                    else p, nw, [], rc, pc⟩],
                latest_version := some i },
              dirs := if st.dirs.contains i then st.dirs else i :: st.dirs,
              infos := (i, ⟨i, n, d,
                  if p.isNone && !st.registry.versions.isEmpty then
                    st.registry.latest_version
                  else p, nw, [], rc, pc⟩) :: st.infos } := by
        simp [applyOp, create_version, setInfo]
      have hrest := ih (applyOp st (Op.createOp n d p i nw rc pc)) h2
        (by
          rw [hstep]
          intro v hv
          simp only [List.mem_append, List.mem_singleton] at hv
          rcases hv with hv | hv
          · exact h1 v hv
          · subst hv; simp)
        (by
          rw [hstep]
          intro v hv
          simp only [List.mem_append, List.mem_singleton] at hv
          rcases hv with hv | hv
          · exact h3 v hv
          · subst hv; simp)
        (by
          rw [hstep]
          exact h4)
      refine ⟨hrest.1, ?_⟩
      simp only [noOverwriteB, Bool.true_and]
      exact hrest.2
    · -- attachOp
      rcases hf : findVersion st.registry vid with _ | ver
      · -- version not found: state unchanged
        have hstep : applyOp st (Op.attachOp vid df dt ts nw) = st := by
          simp [applyOp, add_data_to_version, hf]
        have htail : (attachKeys rest).Nodup := (List.nodup_cons.mp h2).2
        have hrest := ih (applyOp st (Op.attachOp vid df dt ts nw)) htail
          (by rw [hstep]; exact h1)
          (by
            rw [hstep]
            intro v hv f hff hmem
            exact h3 v hv f hff (List.mem_cons_of_mem _ hmem))
          (by
            rw [hstep]
            intro e he hmem
            exact h4 e he (List.mem_cons_of_mem _ hmem))
        refine ⟨hrest.1, ?_⟩
        simp only [noOverwriteB, hf, Option.isSome_none, Bool.not_false, Bool.true_or,
          Bool.true_and]
        exact hrest.2
      · -- version found: descriptor appended, file written
        have hvid : ver.id = vid := by simpa using List.find?_some hf
        have hvermem : ver ∈ st.registry.versions := List.mem_of_find?_eq_some hf
        have hhead : (vid, mkFilename dt ts) ∉ attachKeys rest := (List.nodup_cons.mp h2).1
        have htail : (attachKeys rest).Nodup := (List.nodup_cons.mp h2).2
        have hstep : applyOp st (Op.attachOp vid df dt ts nw) =
            { st with
                registry := { st.registry with
                  versions := updateFirstVersion st.registry.versions vid
                    { ver with data_files := ver.data_files ++
                        [⟨mkFilename dt ts, dt, nw, df.rows.length, df.columns, calcHash df⟩] } },
                files := (vid, mkFilename dt ts, df) :: st.files,
                infos := (vid, { ver with data_files := ver.data_files ++
                    [⟨mkFilename dt ts, dt, nw, df.rows.length, df.columns, calcHash df⟩] }) ::
                  st.infos } := by
          simp [applyOp, add_data_to_version, hf, setFile, setInfo]
        have hfn_not_old : ∀ f ∈ ver.data_files, f.filename ≠ mkFilename dt ts := by
          intro f hff heq
          exact h3 ver hvermem f hff (by
            rw [hvid, heq]
            exact List.mem_cons_self _ _)
        have hlook : lookupFile st vid (mkFilename dt ts) = none := by
          rw [lookupFile]
          have hnone : st.files.find?
              (fun e => e.1 == vid && e.2.1 == mkFilename dt ts) = none := by
            rw [List.find?_eq_none]
            intro e he hbool
            simp only [Bool.and_eq_true, beq_iff_eq] at hbool
            refine h4 e he ?_
            show (e.1, e.2.1) ∈ (vid, mkFilename dt ts) :: attachKeys rest
            rw [hbool.1, hbool.2]
            exact List.mem_cons_self _ _
          rw [hnone]
          rfl
        have h1' : ∀ v ∈ (applyOp st (Op.attachOp vid df dt ts nw)).registry.versions,
            (v.data_files.map (fun f => f.filename)).Nodup := by
          rw [hstep]
          intro v hv
          rcases mem_updateFirstVersion hv with hv | hv
          · subst hv
            simp only [List.map_append, List.map_cons, List.map_nil]
            rw [List.nodup_append]
            refine ⟨h1 ver hvermem, List.nodup_singleton _, ?_⟩
            intro a ha hb
            simp only [List.mem_singleton] at hb
            subst hb
            rcases List.mem_map.mp ha with ⟨f, hff, hfn⟩
            exact hfn_not_old f hff hfn
          · exact h1 v hv
        have h3' : ∀ v ∈ (applyOp st (Op.attachOp vid df dt ts nw)).registry.versions,
            ∀ f ∈ v.data_files, (v.id, f.filename) ∉ attachKeys rest := by
          rw [hstep]
          intro v hv f hff
          rcases mem_updateFirstVersion hv with hv | hv
          · subst hv
            simp only [List.mem_append, List.mem_singleton] at hff
            rcases hff with hff | hff
            · intro hmem
              exact h3 ver hvermem f hff (List.mem_cons_of_mem _ hmem)
            · subst hff
              simpa [hvid] using hhead
          · intro hmem
            exact h3 v hv f hff (List.mem_cons_of_mem _ hmem)
        have h4' : ∀ e ∈ (applyOp st (Op.attachOp vid df dt ts nw)).files,
            (e.1, e.2.1) ∉ attachKeys rest := by
          rw [hstep]
          intro e he
          simp only [List.mem_cons] at he
          rcases he with he | he
          · subst he
            exact hhead
          · intro hmem
            exact h4 e he (List.mem_cons_of_mem _ hmem)
        have hrest := ih (applyOp st (Op.attachOp vid df dt ts nw)) htail h1' h3' h4'
        refine ⟨hrest.1, ?_⟩
        simp only [noOverwriteB, hf, Option.isSome_some, Bool.not_true, Bool.false_or, hlook,
          Option.isNone_none, Bool.true_and]
        exact hrest.2

/-- C6 amended: along any trace of create and attach operations in
which no two attaches to the same version share both the data kind and
the strftime timestamp (i.e. would generate the same filename), every
version's recorded filenames stay pairwise distinct and no artifact
file is ever overwritten; when two attaches do collide — possible
within one wall-clock second — the version records a duplicate
filename and the second write replaces the first artifact's file. -/
theorem C6_unique_filenames (now : String) (ops : List Op)
    (h : (attachKeys ops).Nodup) :
    (∀ v ∈ (runOps (initState now) ops).registry.versions,
        (v.data_files.map (fun f => f.filename)).Nodup)
    ∧ noOverwriteB (initState now) ops = true :=
  runOps_names_nodup ops (initState now) h
    (by intro v hv; simp [initState] at hv)
    (by intro v hv; simp [initState] at hv)
    (by intro e he; simp [initState] at he)

theorem C6_witness :
    (∀ v ∈ (runOps (initState "t0") c6OkOps).registry.versions,
        (v.data_files.map (fun f => f.filename)).Nodup)
    ∧ noOverwriteB (initState "t0") c6OkOps = true :=
  C6_unique_filenames "t0" c6OkOps (by decide)

end ClimateCore
